import Mathlib

/-!
# Verification of the zffmount overlay filesystem adapter

Shallow embedding of the zffmount sources (src/fs/mod.rs, src/main.rs,
src/lib/fs/version2.rs) together with a model of the external reader facade
(the `zff` crate), which is specified only through its interface (spec §6.1,
§4.5).  Machine integers are modelled as `Nat`/`Int`; fallible operations
return `Except`.  A Rust panic (`unreachable!` / `unimplemented!`) is kept
apart from a `zff::Result` error, because a panic is not caught by the
dispatcher and therefore does not turn into an `ENOENT` reply.
-/

namespace Zffmount

/-- Error outcomes of an embedded operation.  `zff` models a `zff::Result`
error (the dispatcher downgrades every such error to an `ENOENT` reply);
`fatal` models a Rust panic, which unwinds past the dispatcher. -/
inductive ZErr where
  | zff
  | fatal
deriving DecidableEq, Repr

/-- `zff::io::zffreader::ObjectType` (the kinds returned by `list_objects`). -/
inductive ZffReaderObjectType where
  | Physical
  | Logical
  | Encrypted
deriving DecidableEq, Repr

/-- `zff::header::FileType` restricted to the variants the adapter consumes
(spec §3: regular, directory, symlink, hardlink, special-file). -/
inductive ZffFileType where
  | File
  | Directory
  | Symlink
  | Hardlink
  | SpecialFile
deriving DecidableEq, Repr

/-- `fuser::FileType`: the kernel-side kinds the adapter emits. -/
inductive FileType where
  | RegularFile
  | Directory
  | Symlink
  | NamedPipe
  | CharDevice
  | BlockDevice
deriving DecidableEq, Repr

/-- `zff::header::SpecialFileType`: sub-kind of a special file, decoded from
the last payload byte.  The concrete byte values stand in for the external
container format; the specification fixes only that the sub-kinds are
fifo, char and block and that unknown values fail (spec §4.3). -/
inductive ZffSpecialFileType where
  | Fifo
  | Char
  | Block
deriving DecidableEq, Repr

/-- `SpecialFileType::try_from(byte)` of the reader facade: the three known
sub-kind bytes decode, every other byte is an error. -/
def ZffSpecialFileType.tryFrom (b : Nat) : Option ZffSpecialFileType :=
  if b = 0 then some .Fifo
  else if b = 1 then some .Char
  else if b = 2 then some .Block
  else none

/-- `zff::io::zffreader::FileMetadata`, the fields the adapter reads. -/
structure FileMetadata where
  first_chunk_number : Nat
  parent_file_number : Nat
  file_type : Option ZffFileType
  filename : Option String
  length_of_data : Nat
deriving DecidableEq, Repr

/-- The file header fallback (`current_fileheader()`): filename and file type
as recorded in the file header (spec §6.1). -/
structure FileHeader where
  filename : String
  file_type : ZffFileType
deriving DecidableEq, Repr

/-- One file of a logical object as the reader facade exposes it. -/
structure ZffFile where
  metadata : FileMetadata
  header : FileHeader
  payload : List Nat
deriving DecidableEq, Repr

/-- The physical-object footer fields the adapter reads, plus the data
stream itself. -/
structure PhysicalData where
  first_chunk_number : Nat
  length_of_data : Nat
  data : List Nat
deriving DecidableEq, Repr

/-- The logical-object footer fields the adapter reads, plus the files. -/
structure LogicalData where
  files : List (Nat × ZffFile)
  file_footer_keys : List Nat
  root_dir_filenumbers : List Nat
deriving DecidableEq, Repr

/-- An object's decrypted content: physical byte stream or logical tree. -/
inductive ObjectData where
  | physical (p : PhysicalData)
  | logical (l : LogicalData)
deriving DecidableEq, Repr

/-- One container object.  `password = some pw` means the object is stored
encrypted and `decrypt_object` succeeds exactly on `pw`; `none` means the
object is stored in the clear. -/
structure ObjectEntry where
  password : Option String
  data : ObjectData
deriving DecidableEq, Repr

/-- A container: the enumerable set of objects keyed by object number
(spec §3).  The association list mirrors the `BTreeMap` iteration order. -/
structure Container where
  objects : List (Nat × ObjectEntry)
deriving DecidableEq, Repr

/-- State of the reader facade, modelled from the interface specification
(spec §6.1 and the cursor model of §4.5): the set of successfully decrypted
objects, the active `(object, file)` selection, and a read position per
`(object, file)` pair (file `0` addresses a physical object's data stream).
Positions persist until an explicit `seek`/`rewind`; `set_active_*` only
re-targets the cursor. -/
structure ZffReaderState where
  container : Container
  decrypted : List Nat
  active_object : Option Nat
  active_file : Option Nat
  pos : Nat → Nat → Nat

/-- `ZffReader::with_reader`: fresh reader over a container. -/
def initialReader (c : Container) : ZffReaderState :=
  ⟨c, [], none, none, fun _ _ => 0⟩

/-- Object lookup in the container (`BTreeMap::get`). -/
def objLookup (c : Container) (n : Nat) : Option ObjectEntry :=
  c.objects.lookup n

/-- Whether object `n` with entry `e` is still sealed in reader state `st`. -/
def isSealed (st : ZffReaderState) (n : Nat) (e : ObjectEntry) : Bool :=
  e.password.isSome && !(st.decrypted.contains n)

/-- The kind under which the reader lists object `n` in state `st`. -/
def listedType (st : ZffReaderState) (n : Nat) (e : ObjectEntry) :
    ZffReaderObjectType :=
  if isSealed st n e then .Encrypted
  else match e.data with
    | .physical _ => .Physical
    | .logical _ => .Logical

/-- `list_objects()`: map from object number to kind (spec §6.1). -/
def list_objects (st : ZffReaderState) : List (Nat × ZffReaderObjectType) :=
  st.container.objects.map (fun p => (p.1, listedType st p.1 p.2))

/-- `decrypt_object(n, pw)`: succeeds (returning the resolved kind and the
updated state) exactly when the password matches; an already decrypted object
reports its kind unchanged. -/
def decrypt_object (st : ZffReaderState) (n : Nat) (pw : String) :
    Except ZErr (ZffReaderObjectType × ZffReaderState) :=
  match objLookup st.container n with
  | none => .error .zff
  | some e =>
    match e.password with
    | none => .ok (listedType st n e, st)
    | some p =>
      if p = pw then
        let st' := { st with decrypted := n :: st.decrypted }
        .ok (listedType st' n e, st')
      else .error .zff

/-- `set_active_object(n)`: selects a decrypted object; fails on an unknown
or still-sealed object number. -/
def set_active_object (st : ZffReaderState) (n : Nat) :
    Except ZErr ZffReaderState :=
  match objLookup st.container n with
  | none => .error .zff
  | some e =>
    if isSealed st n e then .error .zff
    else .ok { st with active_object := some n }

/-- `active_object_footer()`: the footer of the active object. -/
def active_object_footer (st : ZffReaderState) : Except ZErr ObjectData :=
  match st.active_object with
  | none => .error .zff
  | some n =>
    match objLookup st.container n with
    | none => .error .zff
    | some e => if isSealed st n e then .error .zff else .ok e.data

/-- `set_active_file(f)`: selects a file of the active logical object. -/
def set_active_file (st : ZffReaderState) (f : Nat) :
    Except ZErr ZffReaderState :=
  match st.active_object with
  | none => .error .zff
  | some n =>
    match objLookup st.container n with
    | some e =>
      match e.data with
      | .logical l =>
        if (l.files.lookup f).isSome then .ok { st with active_file := some f }
        else .error .zff
      | .physical _ => .error .zff
    | none => .error .zff

/-- The file record of the active `(object, file)` selection. -/
def activeZffFile (st : ZffReaderState) : Except ZErr ZffFile :=
  match st.active_object with
  | none => .error .zff
  | some n =>
    match objLookup st.container n with
    | some e =>
      match e.data with
      | .logical l =>
        match st.active_file with
        | none => .error .zff
        | some f =>
          match l.files.lookup f with
          | some fl => .ok fl
          | none => .error .zff
      | .physical _ => .error .zff
    | none => .error .zff

/-- `current_filemetadata()` (spec §6.1). -/
def current_filemetadata (st : ZffReaderState) : Except ZErr FileMetadata :=
  (activeZffFile st).map (·.metadata)

/-- `current_fileheader()` (spec §6.1). -/
def current_fileheader (st : ZffReaderState) : Except ZErr FileHeader :=
  (activeZffFile st).map (·.header)

/-- The payload stream and position key of the active read target:
a physical object's data stream (keyed by file number `0`) or the active
file of a logical object. -/
def activeStream (st : ZffReaderState) : Except ZErr (List Nat × Nat × Nat) :=
  match st.active_object with
  | none => .error .zff
  | some n =>
    match objLookup st.container n with
    | none => .error .zff
    | some e =>
      if isSealed st n e then .error .zff
      else
        match e.data with
        | .physical p => .ok (p.data, n, 0)
        | .logical l =>
          match st.active_file with
          | none => .error .zff
          | some f =>
            match l.files.lookup f with
            | some fl => .ok (fl.payload, n, f)
            | none => .error .zff

/-- `read_to_end(&mut buf)`: returns the bytes from the current position to
the end of the active stream and leaves the position at the end. -/
def read_to_end (st : ZffReaderState) :
    Except ZErr (List Nat × ZffReaderState) :=
  match activeStream st with
  | .error e => .error e
  | .ok (payload, n, f) =>
    .ok (payload.drop (st.pos n f),
      { st with
        pos := fun n' f' =>
          if n' = n ∧ f' = f then payload.length else st.pos n' f' })

/-- Little-endian byte decomposition of width `k`. -/
def toLEBytes (k : Nat) (v : Nat) : List Nat :=
  match k with
  | 0 => []
  | k + 1 => (v % 256) :: toLEBytes k (v / 256)

/-- Little-endian byte recomposition. -/
def fromLEBytes (bs : List Nat) : Nat :=
  bs.foldr (fun b acc => b + 256 * acc) 0

/-- `u64::encode_directly`: concrete stand-in for the external container
codec (spec §6.1, codec dependency): 64-bit little-endian. -/
def encodeU64 (v : Nat) : List Nat := toLEBytes 8 v

/-- `u64::decode_directly`: reads eight bytes from the front of the buffer;
fewer bytes are a decode error.  Trailing bytes are left alone. -/
def decodeU64 (bs : List Nat) : Except ZErr Nat :=
  if bs.length < 8 then .error .zff else .ok (fromLEBytes (bs.take 8))

/-- Helper for the sequence codec: decode `n` 64-bit values. -/
def decodeU64s : Nat → List Nat → Option (List Nat)
  | 0, _ => some []
  | n + 1, bs =>
    if bs.length < 8 then none
    else
      match decodeU64s n (bs.drop 8) with
      | some vs => some (fromLEBytes (bs.take 8) :: vs)
      | none => none

/-- `Vec::<u64>::decode_directly`: element count followed by the elements
(concrete stand-in for the external container codec). -/
def decodeU64Vec (bs : List Nat) : Except ZErr (List Nat) :=
  if bs.length < 8 then .error .zff
  else
    match decodeU64s (fromLEBytes (bs.take 8)) (bs.drop 8) with
    | some vs => .ok vs
    | none => .error .zff

/-- `Vec::<u64>::encode_directly`, matching `decodeU64Vec`. -/
def encodeU64Vec (vs : List Nat) : List Nat :=
  encodeU64 vs.length ++ (vs.map encodeU64).flatten

/-! ## The active filesystem (`src/fs/mod.rs`) -/

/-- `SPECIAL_INODE_ROOT_DIR` (src/constants.rs). -/
def SPECIAL_INODE_ROOT_DIR : Nat := 1

/-- `ZFF_PHYSICAL_OBJECT_NAME` (src/constants.rs). -/
def ZFF_PHYSICAL_OBJECT_NAME : String := "zff_image.dd"

/-- `format!("{OBJECT_PATH_PREFIX}{obj_number}")` with the prefix constant
`"object_"` (src/constants.rs). -/
def objectEntryName (n : Nat) : String := "object_" ++ Nat.repr n

/-- A directory entry as handed to `reply.add`: inode, kernel kind, name. -/
abbrev Entry := Nat × FileType × String

/-- `ZffFsCache` (src/fs/mod.rs): the object listing taken at mount time and
the inode reverse map. -/
structure ZffFsCache where
  object_list : List (Nat × ZffReaderObjectType)
  inode_reverse_map : List (Nat × (Nat × Nat))

/-- `ZffFs` (src/fs/mod.rs). -/
structure ZffFs where
  zffreader : ZffReaderState
  shift_value : Nat
  cache : ZffFsCache

/-- `BTreeMap::insert`: replace the binding of an existing key, otherwise
append the new binding. -/
def bmInsert (k : Nat) (v : Nat × Nat) (m : List (Nat × (Nat × Nat))) :
    List (Nat × (Nat × Nat)) :=
  if (m.lookup k).isSome then
    m.map (fun p => if p.1 = k then (k, v) else p)
  else m ++ [(k, v)]

/-- The `u64` subtraction `ino - 1` (wraps at zero like Rust's release-mode
`u64` arithmetic). -/
def u64sub1 (ino : Nat) : Nat :=
  if ino = 0 then 2 ^ 64 - 1 else ino - 1

/-- The initialize/decrypt loop of `ZffFs::new` (src/fs/mod.rs:89-112):
`initialize_object` results are only logged; for every object listed as
encrypted the caller-supplied password (or the interactive dialog, modelled
by `dialog`, or the empty string) is passed to `decrypt_object`, and a
decryption failure is only logged. -/
def decryptLoop (decryption_passwords : List (Nat × String))
    (dialog : Nat → Option String)
    (object_list : List (Nat × ZffReaderObjectType))
    (st : ZffReaderState) : ZffReaderState :=
  object_list.foldl
    (fun st p =>
      if p.2 = ZffReaderObjectType.Encrypted then
        let pw :=
          match decryption_passwords.lookup p.1 with
          | some pw => pw
          | none =>
            match dialog p.1 with
            | some pw => pw
            | none => ""
        match decrypt_object st p.1 pw with
        | .ok r => r.2
        | .error _ => st
      else st)
    st

/-- The shift computation of `ZffFs::new` (src/fs/mod.rs:114-119): the
maximum key of the listing entries not marked `Encrypted`, plus one, or one
when there is none. -/
def shiftOf (object_list : List (Nat × ZffReaderObjectType)) : Nat :=
  let numbers_of_decrypted_objects :=
    (object_list.filter
      (fun p => decide (p.2 ≠ ZffReaderObjectType.Encrypted))).map (·.1)
  match numbers_of_decrypted_objects.max? with
  | some v => v + 1
  | none => 1

/-- Inner loop of `inode_reverse_map_add_object` (src/fs/mod.rs:1249-1254):
for every key of `file_footer_segment_numbers`, activate the file and insert
`first_chunk_number + shift ↦ (object, file)`.  The entry counter of the
source is only used for logging and is dropped here. -/
def irmFiles (object_number shift : Nat) :
    List Nat → (List (Nat × (Nat × Nat)) × ZffReaderState) →
    Except ZErr (List (Nat × (Nat × Nat)) × ZffReaderState)
  | [], acc => .ok acc
  | f :: rest, (m, st) =>
    match set_active_file st f with
    | .error e => .error e
    | .ok st1 =>
      match current_filemetadata st1 with
      | .error e => .error e
      | .ok fmd =>
        irmFiles object_number shift rest
          (bmInsert (fmd.first_chunk_number + shift) (object_number, f) m, st1)

/-- `inode_reverse_map_add_object` (src/fs/mod.rs:1238-1256). -/
def inode_reverse_map_add_object (st : ZffReaderState)
    (m : List (Nat × (Nat × Nat))) (object_number shift : Nat) :
    Except ZErr (List (Nat × (Nat × Nat)) × ZffReaderState) :=
  match set_active_object st object_number with
  | .error e => .error e
  | .ok st1 =>
    match active_object_footer st1 with
    | .error e => .error e
    | .ok (.physical _) => .error .zff
    | .ok (.logical l) =>
      irmFiles object_number shift l.file_footer_keys (m, st1)

/-- The reverse-map loop of `ZffFs::new` (src/fs/mod.rs:121-133): only the
objects listed as `Logical` are processed; an error is fatal (`exit`). -/
def irmLoop (shift : Nat) :
    List (Nat × ZffReaderObjectType) →
    (List (Nat × (Nat × Nat)) × ZffReaderState) →
    Except ZErr (List (Nat × (Nat × Nat)) × ZffReaderState)
  | [], acc => .ok acc
  | (n, t) :: rest, (m, st) =>
    if t = ZffReaderObjectType.Logical then
      match inode_reverse_map_add_object st m n shift with
      | .error e => .error e
      | .ok (m', st') => irmLoop shift rest (m', st')
    else irmLoop shift rest (m, st)

/-- `ZffFs::new` (src/fs/mod.rs:63-142).  A fatal path (`exit`) is modelled
as an `Except` error. -/
def ZffFs.new (c : Container) (decryption_passwords : List (Nat × String))
    (dialog : Nat → Option String) : Except ZErr ZffFs :=
  let st0 := initialReader c
  let object_list := list_objects st0
  let st1 := decryptLoop decryption_passwords dialog object_list st0
  let shift_value := shiftOf object_list
  match irmLoop shift_value object_list ([], st1) with
  | .error e => .error e
  | .ok (irm, st2) =>
    .ok ⟨st2, shift_value, ⟨object_list, irm⟩⟩

/-- `convert_filetype` (src/fs/mod.rs:1212-1235).  For a special file the
payload is read to the end and the last byte of the returned buffer selects
the sub-kind; an empty buffer or an unknown byte is a `zff` error.  The
`Hardlink` arm is `unreachable!` in the source and is modelled as `fatal`. -/
def convert_filetype (in_type : ZffFileType) (st : ZffReaderState) :
    Except ZErr (FileType × ZffReaderState) :=
  match in_type with
  | .File => .ok (.RegularFile, st)
  | .Directory => .ok (.Directory, st)
  | .Symlink => .ok (.Symlink, st)
  | .Hardlink => .error .fatal
  | .SpecialFile =>
    match read_to_end st with
    | .error e => .error e
    | .ok (buffer, st1) =>
      match buffer.getLast? with
      | none => .error .zff
      | some byte =>
        match ZffSpecialFileType.tryFrom byte with
        | none => .error .zff
        | some .Fifo => .ok (.NamedPipe, st1)
        | some .Char => .ok (.CharDevice, st1)
        | some .Block => .ok (.BlockDevice, st1)

/-- The file-type fallback of `readdir_entries_file`: the type from the file
metadata, or from the file header when the metadata carries none. -/
def fileTypeOf (st : ZffReaderState) (fmd : FileMetadata) :
    Except ZErr ZffFileType :=
  match fmd.file_type with
  | some t => .ok t
  | none => (current_fileheader st).map (·.file_type)

/-- The filename fallback of `readdir_entries_file` (src/fs/mod.rs:1201-
1204): the filename from the (possibly re-assigned) file metadata, or from
the current file header. -/
def filenameOf (st : ZffReaderState) (fmd : FileMetadata) :
    Except ZErr String :=
  match fmd.filename with
  | some s => .ok s
  | none => (current_fileheader st).map (·.filename)

/-- `readdir_entries_file` (src/fs/mod.rs:1179-1209): one entry per child
file number.  For a hardlink child the payload is read, the target file
number decoded, the target activated and — like the source, which
re-assigns its `filemetadata` binding — the target's metadata used for
inode, kind *and* filename. -/
def readdir_entries_file (shift : Nat) :
    List Nat → ZffReaderState → Except ZErr (List Entry × ZffReaderState)
  | [], st => .ok ([], st)
  | filenumber :: rest, st =>
    match set_active_file st filenumber with
    | .error e => .error e
    | .ok st1 =>
      match current_filemetadata st1 with
      | .error e => .error e
      | .ok fmd0 =>
        match fileTypeOf st1 fmd0 with
        | .error e => .error e
        | .ok t0 =>
          let afterHL : Except ZErr (FileMetadata × ZffFileType × ZffReaderState) :=
            if t0 = ZffFileType.Hardlink then
              match read_to_end st1 with
              | .error e => .error e
              | .ok (buffer, st2) =>
                match decodeU64 buffer with
                | .error e => .error e
                | .ok original_filenumber =>
                  match set_active_file st2 original_filenumber with
                  | .error e => .error e
                  | .ok st3 =>
                    match current_filemetadata st3 with
                    | .error e => .error e
                    | .ok fmd1 =>
                      match fileTypeOf st3 fmd1 with
                      | .error e => .error e
                      | .ok t1 => .ok (fmd1, t1, st3)
            else .ok (fmd0, t0, st1)
          match afterHL with
          | .error e => .error e
          | .ok (fmd, t, st4) =>
            let inode := fmd.first_chunk_number + shift
            match convert_filetype t st4 with
            | .error e => .error e
            | .ok (filetype, st5) =>
              match filenameOf st5 fmd with
              | .error e => .error e
              | .ok filename =>
                match readdir_entries_file shift rest st5 with
                | .error e => .error e
                | .ok (entries, st6) =>
                  .ok ((inode, filetype, filename) :: entries, st6)

/-- `readdir_physical_object_root` (src/fs/mod.rs:1159-1169). -/
def readdir_physical_object_root (st : ZffReaderState) (shift : Nat) :
    Except ZErr (List Entry × ZffReaderState) :=
  match active_object_footer st with
  | .error e => .error e
  | .ok (.physical footer) =>
    .ok ([(footer.first_chunk_number + shift, .RegularFile,
      ZFF_PHYSICAL_OBJECT_NAME)], st)
  | .ok (.logical _) => .error .zff

/-- `readdir_logical_object_root` (src/fs/mod.rs:1171-1177). -/
def readdir_logical_object_root (st : ZffReaderState) (shift : Nat) :
    Except ZErr (List Entry × ZffReaderState) :=
  match active_object_footer st with
  | .error e => .error e
  | .ok (.logical footer) =>
    readdir_entries_file shift footer.root_dir_filenumbers st
  | .ok (.physical _) => .error .zff

/-- `prepare_zffreader_logical_file` (src/fs/mod.rs:1258-1265). -/
def prepare_zffreader_logical_file (st : ZffReaderState)
    (object_no file_no : Nat) :
    Except ZErr (FileMetadata × ZffReaderState) :=
  match set_active_object st object_no with
  | .error e => .error e
  | .ok st1 =>
    match set_active_file st1 file_no with
    | .error e => .error e
    | .ok st2 =>
      match current_filemetadata st2 with
      | .error e => .error e
      | .ok fmd => .ok (fmd, st2)

/-- `ZffFs::readdir` (src/fs/mod.rs:146-267).  The result is the list of
entries fed to the kernel after skipping the first `offset` constructed
entries (the kernel's buffer-full early stop is not modelled: every offered
entry is accepted).  An `ENOENT` reply is `.error .zff`; no entry is emitted
on that path. -/
def ZffFs.readdir (fs : ZffFs) (ino : Nat) (offset : Nat) :
    Except ZErr (List Entry × ZffFs) :=
  let dot : Entry := (ino, .Directory, ".")
  if ino = SPECIAL_INODE_ROOT_DIR then
    let entries := dot ::
      (SPECIAL_INODE_ROOT_DIR, FileType.Directory, "..") ::
      ((fs.cache.object_list.filter
        (fun p => decide (p.2 ≠ ZffReaderObjectType.Encrypted))).map
        (fun p => (p.1 + 1, FileType.Directory, objectEntryName p.1)))
    .ok (entries.drop offset, fs)
  else if ino ≤ fs.shift_value then
    match set_active_object fs.zffreader (u64sub1 ino) with
    | .error _ => .error .zff
    | .ok st1 =>
      match fs.cache.object_list.lookup (u64sub1 ino) with
      | none => .error .zff
      | some .Encrypted => .error .zff
      | some .Physical =>
        match readdir_physical_object_root st1 fs.shift_value with
        | .error _ => .error .zff
        | .ok (content, st2) =>
          let entries := dot ::
            (SPECIAL_INODE_ROOT_DIR, FileType.Directory, "..") :: content
          .ok (entries.drop offset, { fs with zffreader := st2 })
      | some .Logical =>
        match readdir_logical_object_root st1 fs.shift_value with
        | .error e =>
          match e with
          | .zff => .error .zff
          | .fatal => .error .fatal
        | .ok (content, st2) =>
          let entries := dot ::
            (SPECIAL_INODE_ROOT_DIR, FileType.Directory, "..") :: content
          .ok (entries.drop offset, { fs with zffreader := st2 })
  else
    match fs.cache.inode_reverse_map.lookup ino with
    | none => .error .zff
    | some (object_no, file_no) =>
      match prepare_zffreader_logical_file fs.zffreader object_no file_no with
      | .error _ => .error .zff
      | .ok (fmd, st1) =>
        match read_to_end st1 with
        | .error _ => .error .zff
        | .ok (buffer, st2) =>
          match decodeU64Vec buffer with
          | .error _ => .error .zff
          | .ok children =>
            match readdir_entries_file fs.shift_value children st2 with
            | .error e =>
              match e with
              | .zff => .error .zff
              | .fatal => .error .fatal
            | .ok (children_entries, st3) =>
              let entries := dot ::
                (fmd.parent_file_number + fs.shift_value,
                  FileType.Directory, "..") :: children_entries
              .ok (entries.drop offset, { fs with zffreader := st3 })

/-- Projection: the emitted entry stream of a `readdir` call. -/
def readdirEntries (fs : ZffFs) (ino offset : Nat) :
    Except ZErr (List Entry) :=
  (ZffFs.readdir fs ino offset).map (·.1)

/-! ## The legacy per-object filesystem (`src/lib/fs/version2.rs`) -/

/-- Rust's bitwise NOT on a signed 64-bit integer: in two's complement
`!o = -o - 1`, exactly, for every representable `o` (no wrap-around is
possible since `-i64::MIN - 1 = i64::MAX` and `-i64::MAX - 1 = i64::MIN`). -/
def rustNotI64 (o : Int) : Int := -o - 1

/-- A file of `ZffLogicalObjectFs` as the old reader API exposes it:
`file_information().header()` fields, the advertised data length and the
payload bytes. -/
structure V2File where
  file_type : ZffFileType
  filename : String
  length_of_data : Nat
  payload : List Nat
deriving DecidableEq, Repr

/-- `ZffLogicalObjectFs` (src/lib/fs/version2.rs) restricted to the state
its `read` implementation touches: the object's files keyed by file number,
the single reader cursor position and the active file selection. -/
structure V2Fs where
  object_number : Nat
  files : List (Nat × V2File)
  position : Nat
  active : Option Nat
deriving Repr

/-- `Read::read(&mut buffer)` of the old reader: overwrite the front of
`buffer` with as many bytes as the source still offers; the rest of the
buffer keeps its previous contents.  The result always has the length of
`buffer`. -/
def fillBuffer (src buf : List Nat) : List Nat :=
  src.take buf.length ++ buf.drop (min buf.length src.length)

/-- `ZffLogicalObjectFs::read` (src/lib/fs/version2.rs:743-833).
The guard is the source's `if !offset >= 0` — a bitwise NOT on `i64`.
`reply.data(&buffer)` hands the kernel the whole `size`-byte buffer, so the
result of a successful call always has exactly `size` bytes.  The returned
state is unchanged on every error path that precedes a reader operation. -/
def V2Fs.read (fs : V2Fs) (ino : Nat) (offset : Int) (size : Nat) :
    Except ZErr (List Nat) × V2Fs :=
  if rustNotI64 offset ≥ 0 then (.error .zff, fs)
  else
    let filenumber := u64sub1 ino
    match fs.files.lookup filenumber with
    | none => (.error .zff, fs)
    | some fileinformation =>
      let fs1 : V2Fs := { fs with active := some filenumber }
      let resolved : Except ZErr (V2File × V2Fs) :=
        if fileinformation.file_type = ZffFileType.Hardlink then
          let fs2 : V2Fs := { fs1 with position := 0 }
          let link_size := fileinformation.length_of_data
          let buffer := fillBuffer (fileinformation.payload.drop fs2.position)
            (List.replicate link_size 0)
          match decodeU64 buffer with
          | .error e => .error e
          | .ok target =>
            match fs2.files.lookup target with
            | none => .error .zff
            | some tfi => .ok (tfi, { fs2 with active := some target })
        else .ok (fileinformation, fs1)
      match resolved with
      | .error e => (.error e, fs1)
      | .ok (fi, fs3) =>
        let fs4 : V2Fs := { fs3 with position := offset.toNat }
        let buffer := fillBuffer (fi.payload.drop fs4.position)
          (List.replicate size 0)
        (.ok buffer, fs4)

/-! ## The overlay filesystem of the current binary (`src/main.rs`) -/

/-- `fuser::FileAttr` restricted to the fields the overlay claims touch. -/
structure FileAttr where
  ino : Nat
  kind : FileType
  perm : Nat
  nlink : Nat
deriving DecidableEq, Repr

/-- `ZffOverlayFs` (src/main.rs:58-63), the fields `lookup` consults. -/
structure ZffOverlayFs where
  objects : List (Nat × FileAttr)
  inode_attributes_map : List (Nat × FileAttr)
deriving DecidableEq, Repr

/-- The characters of the `OBJECT_PREFIX` constant `"object_"`. -/
def objectPrefixChars : List Char := ['o', 'b', 'j', 'e', 'c', 't', '_']

/-- The positions of `s` at which `pat` occurs. -/
def occStarts (pat s : List Char) : List Nat :=
  (List.range (s.length + 1)).filter (fun i => pat.isPrefixOf (s.drop i))

/-- `name.rsplit(pat).next()`: the part of `name` after the *last*
occurrence of `pat`, or the whole name when `pat` does not occur.  The
iterator of a non-empty pattern always yields at least one segment, so the
result is always `some`; the `Option` mirrors the `match split.next()` of
the source, whose `None` arm is dead. -/
def rsplitNextOpt (pat s : List Char) : Option (List Char) :=
  match (occStarts pat s).max? with
  | some i => some (s.drop (i + pat.length))
  | none => some s

/-- The numeric value of an ASCII decimal digit. -/
def digitVal (c : Char) : Option Nat :=
  if '0' ≤ c ∧ c ≤ '9' then some (c.toNat - '0'.toNat) else none

/-- Decimal accumulation over a digit string; fails on a non-digit. -/
def parseDigitsAcc (acc : Nat) : List Char → Option Nat
  | [] => some acc
  | c :: cs =>
    match digitVal c with
    | some d => parseDigitsAcc (acc * 10 + d) cs
    | none => none

/-- Rust's `str::parse::<u64>()`: an optional leading `+`, then at least one
ASCII decimal digit, and the value must fit in 64 bits. -/
def parseU64 (s : List Char) : Option Nat :=
  let t := match s with
    | '+' :: rest => rest
    | _ => s
  match t with
  | [] => none
  | _ =>
    match parseDigitsAcc 0 t with
    | some v => if v < 2 ^ 64 then some v else none
    | none => none

/-- `ZffOverlayFs::lookup` (src/main.rs:168-202): under the mount root the
name is split from the right on `OBJECT_PREFIX`, the first segment of that
iterator is parsed as `u64` and used as the object number; under any other
parent the reply is `ENOENT`.  The name is assumed to be valid UTF-8 (the
`name.to_str()` conversion succeeds). -/
def overlayLookup (fs : ZffOverlayFs) (parent : Nat) (name : List Char) :
    Except ZErr FileAttr :=
  if parent = SPECIAL_INODE_ROOT_DIR then
    match rsplitNextOpt objectPrefixChars name with
    | none => .error .zff
    | some unparsed_object_number =>
      match parseU64 unparsed_object_number with
      | none => .error .zff
      | some object_number =>
        match fs.objects.lookup object_number with
        | none => .error .zff
        | some file_attr => .ok file_attr
  else .error .zff

/-! ## The shift constant the specification prescribes -/

/-- The shift constant as the specification words it (`S = max(object
number) + 1` over all objects that are *not encrypted after the decryption
phase*, `1` if none): the same maximum-plus-one computation, but applied to
the reader's object listing *after* `ZffFs::new` has finished, instead of
the pre-decryption snapshot the source uses. -/
def claimShift (fs : ZffFs) : Nat := shiftOf (list_objects fs.zffreader)

/-! ## Concrete containers used by the claim evaluations -/

/-- No interactive password dialog: every prompt is declined. -/
def noDialog : Nat → Option String := fun _ => none

/-- A container holding a single *encrypted* object number 5 (a physical
object underneath, protected by the password `"pw"`). -/
def cEnc : Container :=
  ⟨[(5, ⟨some "pw", .physical ⟨100, 3, [65, 66, 67]⟩⟩)]⟩

/-- The matching password map: the correct password for object 5. -/
def cEncPw : List (Nat × String) := [(5, "pw")]

/-- Logical object 1 with a regular file `orig` (file 20, first chunk 300,
payload `"x"`) and a hardlink `link` (file 21, first chunk 301, payload the
encoded target file number 20), both at the object root (scenario S4 of the
specification). -/
def hlData : LogicalData :=
  ⟨[(20, ⟨⟨300, 0, some .File, some "orig", 1⟩, ⟨"orig", .File⟩, [120]⟩),
    (21, ⟨⟨301, 0, some .Hardlink, some "link", 8⟩, ⟨"link", .Hardlink⟩,
      encodeU64 20⟩)],
   [20, 21], [20, 21]⟩

/-- The container around `hlData`. -/
def cHL : Container := ⟨[(1, ⟨none, .logical hlData⟩)]⟩

/-- Logical object 3: the root holds directory `a` (file 10, first chunk
200) containing regular file `b` (file 11, first chunk 201, payload
`"hello"`) — scenario S3 of the specification. -/
def logData : LogicalData :=
  ⟨[(10, ⟨⟨200, 0, some .Directory, some "a", 16⟩, ⟨"a", .Directory⟩,
      encodeU64Vec [11]⟩),
    (11, ⟨⟨201, 10, some .File, some "b", 5⟩, ⟨"b", .File⟩,
      [104, 101, 108, 108, 111]⟩)],
   [10, 11], [10]⟩

/-- The container around `logData`. -/
def cLog : Container := ⟨[(3, ⟨none, .logical logData⟩)]⟩

/-- A container holding a single unencrypted physical object number 2 with
`first_chunk_number = 100`. -/
def cPhy : Container :=
  ⟨[(2, ⟨none, .physical ⟨100, 3, [65, 66, 67]⟩⟩)]⟩

/-- Logical object 1: directory `d` (file 30, first chunk 500) containing a
special file `sp` (file 31, first chunk 501) whose payload ends in the given
byte list. -/
def spData (payload : List Nat) : LogicalData :=
  ⟨[(30, ⟨⟨500, 0, some .Directory, some "d", 16⟩, ⟨"d", .Directory⟩,
      encodeU64Vec [31]⟩),
    (31, ⟨⟨501, 30, some .SpecialFile, some "sp", 1⟩, ⟨"sp", .SpecialFile⟩,
      payload⟩)],
   [30, 31], [30]⟩

/-- Special-file container: the payload's last byte is the fifo sub-kind. -/
def cFifo : Container := ⟨[(1, ⟨none, .logical (spData [0])⟩)]⟩

/-- Special-file container: the payload is empty. -/
def cEmptySp : Container := ⟨[(1, ⟨none, .logical (spData [])⟩)]⟩

/-- Special-file container: the payload's last byte decodes no sub-kind. -/
def cBadSp : Container := ⟨[(1, ⟨none, .logical (spData [7])⟩)]⟩

/-- An overlay filesystem whose only object is number 5. -/
def attr5 : FileAttr := ⟨12, .Directory, 493, 2⟩

/-- The overlay state holding only object 5 under inode 12. -/
def fsOverlay : ZffOverlayFs := ⟨[(5, attr5)], [(12, attr5)]⟩

/-- A legacy logical-object filesystem with the single regular file `b`
(file number 11, inode 12, payload `"hello"`). -/
def v2ex : V2Fs :=
  ⟨3, [(11, ⟨.File, "b", 5, [104, 101, 108, 108, 111]⟩)], 0, none⟩

/-- The container behind `fsTen`: object 2 encrypted (no usable password),
object 4 a plain physical object, so that the mounted shift is 5. -/
def cTen : Container :=
  ⟨[(2, ⟨some "secret", .physical ⟨100, 0, []⟩⟩),
    (4, ⟨none, .physical ⟨200, 0, []⟩⟩)]⟩

/-- The filesystem `ZffFs::new` builds over `cTen` with no passwords:
object 2 stays encrypted, the shift is `4 + 1 = 5`, the reverse map is
empty. -/
def fsTen : ZffFs :=
  ⟨⟨cTen, [], none, none, fun _ _ => 0⟩, 5,
   ⟨[(2, .Encrypted), (4, .Physical)], []⟩⟩

/-- The filesystem `ZffFs::new` builds over `cHL` with no passwords. -/
def fsHL : ZffFs :=
  ⟨⟨cHL, [], some 1, some 21, fun _ _ => 0⟩, 2,
   ⟨[(1, .Logical)], [(302, (1, 20)), (303, (1, 21))]⟩⟩

/-- Sanity check: `fsHL` is exactly what mounting `cHL` produces. -/
theorem fsHL_spec : ZffFs.new cHL [] noDialog = .ok fsHL := by rfl

/-- The reader state over `cFifo` with the special file 31 active. -/
def stFifo : ZffReaderState := ⟨cFifo, [], some 1, some 31, fun _ _ => 0⟩

/-- The reader state `read_to_end` leaves behind on `stFifo`. -/
def stFifoAfter : ZffReaderState :=
  { stFifo with
    pos := fun n' f' => if n' = 1 ∧ f' = 31 then 1 else stFifo.pos n' f' }

/-! ## Helper lemmas -/

/-- Membership after a `BTreeMap` insert: the element was already bound or
it is the inserted binding. -/
theorem mem_bmInsert {k : Nat} {v : Nat × Nat} {m : List (Nat × (Nat × Nat))}
    {e : Nat × (Nat × Nat)} (h : e ∈ bmInsert k v m) :
    e ∈ m ∨ e = (k, v) := by
  unfold bmInsert at h
  by_cases hk : (m.lookup k).isSome
  · rw [if_pos hk] at h
    rcases List.mem_map.mp h with ⟨p, hp, he⟩
    by_cases hpk : p.1 = k
    · rw [if_pos hpk] at he
      right; exact he.symm
    · rw [if_neg hpk] at he
      left; exact he ▸ hp
  · rw [if_neg hk] at h
    rcases List.mem_append.mp h with h | h
    · left; exact h
    · right; simpa using h

/-- Every binding produced by the per-file loop of
`inode_reverse_map_add_object` either pre-existed or names the processed
object. -/
theorem irmFiles_mem (n shift : Nat) (fl : List Nat) :
    ∀ m st m' st', irmFiles n shift fl (m, st) = .ok (m', st') →
      ∀ e, e ∈ m' → e ∈ m ∨ e.2.1 = n := by
  induction fl with
  | nil =>
    intro m st m' st' h e he
    simp only [irmFiles] at h
    obtain ⟨h1, _⟩ := Prod.mk.injEq .. ▸ (Except.ok.injEq .. ▸ h)
    exact Or.inl (h1 ▸ he)
  | cons f rest ih =>
    intro m st m' st' h e he
    simp only [irmFiles] at h
    split at h
    · exact absurd h (by simp)
    next st1 _ =>
      split at h
      · exact absurd h (by simp)
      next fmd _ =>
        rcases ih _ _ _ _ h e he with hmem | hn
        · rcases mem_bmInsert hmem with h' | h'
          · exact Or.inl h'
          · exact Or.inr (by rw [h'])
        · exact Or.inr hn

/-- Every binding produced by `inode_reverse_map_add_object` either
pre-existed or names the processed object. -/
theorem irmAdd_mem (st : ZffReaderState) (m : List (Nat × (Nat × Nat)))
    (n shift : Nat) (m' : List (Nat × (Nat × Nat))) (st' : ZffReaderState)
    (h : inode_reverse_map_add_object st m n shift = .ok (m', st')) :
    ∀ e, e ∈ m' → e ∈ m ∨ e.2.1 = n := by
  intro e he
  unfold inode_reverse_map_add_object at h
  split at h
  · exact absurd h (by simp)
  next st1 _ =>
    split at h
    · exact absurd h (by simp)
    · exact absurd h (by simp)
    next l _ => exact irmFiles_mem n shift _ _ _ _ _ h e he

/-- Every binding produced by the reverse-map loop of `ZffFs::new` either
pre-existed or names an object that the listing marks `Logical`. -/
theorem irmLoop_mem (shift : Nat) (l : List (Nat × ZffReaderObjectType)) :
    ∀ m st m' st', irmLoop shift l (m, st) = .ok (m', st') →
      ∀ e, e ∈ m' →
        e ∈ m ∨ (e.2.1, ZffReaderObjectType.Logical) ∈ l := by
  induction l with
  | nil =>
    intro m st m' st' h e he
    simp only [irmLoop] at h
    obtain ⟨h1, _⟩ := Prod.mk.injEq .. ▸ (Except.ok.injEq .. ▸ h)
    exact Or.inl (h1 ▸ he)
  | cons p rest ih =>
    intro m st m' st' h e he
    obtain ⟨n, t⟩ := p
    simp only [irmLoop] at h
    by_cases ht : t = ZffReaderObjectType.Logical
    · rw [if_pos ht] at h
      split at h
      · exact absurd h (by simp)
      next m1 st1 _ heq =>
        rcases ih _ _ _ _ h e he with hmem | hrest
        · rcases irmAdd_mem _ _ _ _ _ _ heq e hmem with h' | h'
          · exact Or.inl h'
          · exact Or.inr (by rw [h', ht]; exact List.mem_cons_self ..)
        · exact Or.inr (List.mem_cons_of_mem _ hrest)
    · rw [if_neg ht] at h
      rcases ih _ _ _ _ h e he with hmem | hrest
      · exact Or.inl hmem
      · exact Or.inr (List.mem_cons_of_mem _ hrest)

/-! ## Claim theorems -/

/-- C1: the claim says the shift equals `max(object number) + 1` over the
objects that are not encrypted *after the decryption phase* (1 if none).
The code computes the shift from the object listing taken *before* the
decryption loop, so a successfully decrypted object is not counted: over
`cEnc` (single encrypted object 5, correct password supplied) object 5 ends
up decrypted, the claim's formula (`claimShift`) gives 6, but the code's
`shift_value` is 1. -/
theorem C1_shift_built_from_stale_listing :
    (ZffFs.new cEnc cEncPw noDialog).toOption.map
      (fun fs => (fs.shift_value, claimShift fs, fs.zffreader.decrypted))
      = some (1, 6, [5]) := by rfl

/-- C2: the claim says `readdir(1, 0)` lists `object_<N>` for every object
not encrypted after the initialization phase.  Over `cEnc` object 5 is
successfully decrypted during initialization, yet the root listing — built
from the pre-decryption snapshot — shows only the two dot entries. -/
theorem C2_root_readdir_hides_decrypted_object :
    (ZffFs.new cEnc cEncPw noDialog).toOption.map
      (fun fs => (readdirEntries fs 1 0, fs.zffreader.decrypted))
      = some (.ok [(1, .Directory, "."), (1, .Directory, "..")], [5]) := by
  rfl

/-- C3: the claim says a hardlink's directory entry carries the target's
inode (`first_chunk_number + S`) but the hardlink's *own* filename.  Over
`cHL` (regular file `orig`, hardlink `link` pointing at it) the emitted
entry for the hardlink has the target inode `302 = 300 + 2` as claimed, but
its name is the target's `"orig"` — the source re-assigns the whole
`filemetadata` binding, losing the hardlink's filename, so `"link"` never
appears in the listing. -/
theorem C3_hardlink_entry_keeps_target_name :
    (ZffFs.new cHL [] noDialog).toOption.map (fun fs => readdirEntries fs 2 0)
      = some (.ok [(2, .Directory, "."), (1, .Directory, ".."),
          (302, .RegularFile, "orig"), (302, .RegularFile, "orig")])
    ∧ "link" ∉ ([".", "..", "orig", "orig"] : List String) := by
  exact ⟨by rfl, by decide⟩

/-- C4: the claim says `readdir` on an inode above the shift rewinds the
reader before decoding the directory payload.  No rewind happens in the
source: over `cLog` the first `readdir(204, 0)` succeeds (and leaves the
read position at the payload's end), and an immediately repeated
`readdir(204, 0)` reads zero bytes, fails to decode the child list and
replies `ENOENT` instead of re-emitting the entries. -/
theorem C4_second_readdir_fails_without_rewind :
    (ZffFs.new cLog [] noDialog).toOption.map (fun fs =>
      (readdirEntries fs 204 0,
        match ZffFs.readdir fs 204 0 with
        | .ok x => readdirEntries x.2 204 0
        | .error e => .error e))
      = some (.ok [(204, .Directory, "."), (4, .Directory, ".."),
          (205, .RegularFile, "b")], .error .zff) := by rfl

/-- C5 counterexample: the claim says a decrypted physical object `N` gets
the reverse-map entry `first_chunk_number(N) + S ↦ (N, 0)`.  Over `cPhy`
(physical object 2, `first_chunk_number = 100`, shift 3) the reverse map is
empty — the construction loop only processes objects listed `Logical` — so
the entry `103 ↦ (2, 0)` is absent. -/
theorem C5_physical_object_entry_absent :
    (ZffFs.new cPhy [] noDialog).toOption.map
      (fun fs => (fs.cache.inode_reverse_map.contains
          (100 + fs.shift_value, 2, 0),
        fs.cache.inode_reverse_map, fs.shift_value))
      = some (false, [], 3) := by rfl

/-- C5 amended: after mount initialization every binding of
`inode_reverse_map` belongs to an object the mount-time listing marks
`Logical`; physical objects contribute no binding (their data file is
synthesized from the footer at `readdir` time instead). -/
theorem C5_reverse_map_only_logical_objects (c : Container)
    (pws : List (Nat × String)) (dlg : Nat → Option String) (fs : ZffFs)
    (h : ZffFs.new c pws dlg = .ok fs) :
    ∀ e, e ∈ fs.cache.inode_reverse_map →
      (e.2.1, ZffReaderObjectType.Logical) ∈ fs.cache.object_list := by
  intro e he
  simp only [ZffFs.new] at h
  split at h
  · exact absurd h (by simp)
  next irm st2 heq =>
    injection h with h2
    subst h2
    rcases irmLoop_mem _ _ _ _ _ _ heq e he with h0 | h0
    · exact absurd h0 (List.not_mem_nil e)
    · exact h0

/-- C5 witness: instantiating the amended theorem at the mounted `cHL`,
whose reverse map binds inode 302 to `(1, 20)`, places object 1 among the
logically listed objects. -/
theorem C5_reverse_map_only_logical_objects_witness :
    ((1 : Nat), ZffReaderObjectType.Logical) ∈ fsHL.cache.object_list :=
  C5_reverse_map_only_logical_objects cHL [] noDialog fsHL (by rfl)
    (302, (1, 20)) (by decide)

/-- C6 counterexample: the claim says `read` returns exactly
`min(sz, L - off)` bytes and never pads.  Over `v2ex` (file `"hello"`,
`L = 5`) the call `read(12, 0, 10)` returns all ten requested bytes — the
five content bytes followed by five padding zeros — because the source
replies with the whole allocated buffer. -/
theorem C6_short_read_is_zero_padded :
    (V2Fs.read v2ex 12 0 10).1
      = .ok [104, 101, 108, 108, 111, 0, 0, 0, 0, 0]
    ∧ ([104, 101, 108, 108, 111, 0, 0, 0, 0, 0] : List Nat).length
      ≠ min 10 (5 - 0) := by
  exact ⟨by rfl, by decide⟩

/-- C6 amended: for a non-hardlink file with payload `p` and a non-negative
offset, `read(ino, off, sz)` replies with exactly `sz` bytes: the first
`min(sz, |p| - off)` are `p[off..]`, and the remainder is zero fill. -/
theorem C6_read_framing (fs : V2Fs) (ino : Nat) (offset : Int) (size : Nat)
    (f : V2File) (h0 : 0 ≤ offset)
    (hf : fs.files.lookup (u64sub1 ino) = some f)
    (hk : f.file_type ≠ ZffFileType.Hardlink) :
    (V2Fs.read fs ino offset size).1 =
      .ok ((f.payload.drop offset.toNat).take
          (min size (f.payload.length - offset.toNat))
        ++ List.replicate
          (size - min size (f.payload.length - offset.toNat)) 0) := by
  have hg : ¬ (rustNotI64 offset ≥ 0) := by unfold rustNotI64; omega
  unfold V2Fs.read
  rw [if_neg hg]
  simp only [hf, if_neg hk]
  unfold fillBuffer
  have hlen : (f.payload.drop offset.toNat).length
      = f.payload.length - offset.toNat := List.length_drop ..
  rcases Nat.le_total size (f.payload.length - offset.toNat) with hle | hle
  · have hmin : min size (f.payload.length - offset.toNat) = size :=
      Nat.min_eq_left hle
    simp [hmin, hlen, Nat.min_eq_left hle, List.drop_replicate]
  · have hmin : min size (f.payload.length - offset.toNat)
        = f.payload.length - offset.toNat := Nat.min_eq_right hle
    have htake : (f.payload.drop offset.toNat).take size
        = f.payload.drop offset.toNat := by
      apply List.take_of_length_le; omega
    have htake2 : (f.payload.drop offset.toNat).take
        (f.payload.length - offset.toNat) = f.payload.drop offset.toNat := by
      apply List.take_of_length_le; omega
    simp [hmin, hlen, Nat.min_eq_right hle, List.drop_replicate, htake, htake2]

/-- C6 witness: reading three bytes at offset one of the five-byte file
yields the three middle content bytes and no padding. -/
theorem C6_read_framing_witness :
    (V2Fs.read v2ex 12 1 3).1 =
      .ok (((([104, 101, 108, 108, 111] : List Nat)).drop (Int.toNat 1)).take
          (min 3 (([104, 101, 108, 108, 111] : List Nat).length - Int.toNat 1))
        ++ List.replicate
          (3 - min 3 (([104, 101, 108, 108, 111] : List Nat).length
            - Int.toNat 1)) 0) :=
  C6_read_framing v2ex 12 1 3 ⟨.File, "b", 5, [104, 101, 108, 108, 111]⟩
    (by decide) (by rfl) (by decide)

/-- C7: the kernel kind of an emitted special file is decoded from the last
byte of the buffer `read_to_end` returns (fifo byte → named pipe, char byte
→ character device, block byte → block device); an empty buffer or an
unknown byte makes `convert_filetype` fail, and the containing `readdir`
replies `ENOENT` — witnessed concretely over `cFifo` (entry emitted as a
named pipe), `cEmptySp` (empty payload) and `cBadSp` (unknown byte 7). -/
theorem C7_special_file_subkind_resolution :
    (∀ st p st', read_to_end st = .ok (p, st') → p.getLast? = some 0 →
      convert_filetype .SpecialFile st = .ok (.NamedPipe, st'))
    ∧ (∀ st p st', read_to_end st = .ok (p, st') → p.getLast? = some 1 →
      convert_filetype .SpecialFile st = .ok (.CharDevice, st'))
    ∧ (∀ st p st', read_to_end st = .ok (p, st') → p.getLast? = some 2 →
      convert_filetype .SpecialFile st = .ok (.BlockDevice, st'))
    ∧ (∀ st st', read_to_end st = .ok ([], st') →
      convert_filetype .SpecialFile st = .error .zff)
    ∧ (∀ st p st' b, read_to_end st = .ok (p, st') → p.getLast? = some b →
      b ≠ 0 → b ≠ 1 → b ≠ 2 →
      convert_filetype .SpecialFile st = .error .zff)
    ∧ (ZffFs.new cFifo [] noDialog).toOption.map
        (fun fs => readdirEntries fs 502 0)
      = some (.ok [(502, .Directory, "."), (2, .Directory, ".."),
          (503, .NamedPipe, "sp")])
    ∧ (ZffFs.new cEmptySp [] noDialog).toOption.map
        (fun fs => readdirEntries fs 502 0) = some (.error .zff)
    ∧ (ZffFs.new cBadSp [] noDialog).toOption.map
        (fun fs => readdirEntries fs 502 0) = some (.error .zff) := by
  refine ⟨?_, ?_, ?_, ?_, ?_, by rfl, by rfl, by rfl⟩
  · intro st p st' h hl
    simp [convert_filetype, h, hl, ZffSpecialFileType.tryFrom]
  · intro st p st' h hl
    simp [convert_filetype, h, hl, ZffSpecialFileType.tryFrom]
  · intro st p st' h hl
    simp [convert_filetype, h, hl, ZffSpecialFileType.tryFrom]
  · intro st st' h
    simp [convert_filetype, h]
  · intro st p st' b h hl hb0 hb1 hb2
    simp [convert_filetype, h, hl, ZffSpecialFileType.tryFrom, hb0, hb1, hb2]

/-- C7 witness: the reader positioned on the fifo special file of `cFifo`
converts to a named pipe. -/
theorem C7_special_file_subkind_resolution_witness :
    convert_filetype .SpecialFile stFifo = .ok (.NamedPipe, stFifoAfter) :=
  C7_special_file_subkind_resolution.1 stFifo [0] stFifoAfter
    (by rfl) (by rfl)

/-- C8 counterexample: the claim says a name that does not carry the
`object_` prefix gets `ENOENT`.  The source splits from the right and never
checks that the prefix occurred: looking up the bare name `"5"` under the
root succeeds and returns object 5's attributes, although `"object_"` is
not a prefix of `"5"`. -/
theorem C8_lookup_accepts_unprefixed_name :
    overlayLookup fsOverlay 1 ['5'] = .ok attr5
    ∧ objectPrefixChars.isPrefixOf ['5'] = false := by
  exact ⟨by rfl, by decide⟩

/-- C8 amended: under the root parent the portion of the name after the
*last* occurrence of `object_` — the whole name when the prefix is absent —
is parsed as `u64`; the reply is `ENOENT` exactly when that parse fails or
the parsed object number is unknown, and otherwise the object's attributes
are returned.  The `object_` prefix itself is not required. -/
theorem C8_lookup_parses_suffix_after_last_occurrence (fs : ZffOverlayFs)
    (name s : List Char)
    (hs : rsplitNextOpt objectPrefixChars name = some s) :
    (parseU64 s = none → overlayLookup fs 1 name = .error .zff)
    ∧ (∀ n a, parseU64 s = some n → fs.objects.lookup n = some a →
      overlayLookup fs 1 name = .ok a)
    ∧ (∀ n, parseU64 s = some n → fs.objects.lookup n = none →
      overlayLookup fs 1 name = .error .zff) := by
  refine ⟨?_, ?_, ?_⟩
  · intro hp
    simp [overlayLookup, SPECIAL_INODE_ROOT_DIR, hs, hp]
  · intro n a hp ha
    simp [overlayLookup, SPECIAL_INODE_ROOT_DIR, hs, hp, ha]
  · intro n hp ha
    simp [overlayLookup, SPECIAL_INODE_ROOT_DIR, hs, hp, ha]

/-- C8 witness: the well-formed name `"object_5"` resolves to object 5. -/
theorem C8_lookup_parses_suffix_witness :
    overlayLookup fsOverlay 1 ['o', 'b', 'j', 'e', 'c', 't', '_', '5']
      = .ok attr5 :=
  (C8_lookup_parses_suffix_after_last_occurrence fsOverlay
    ['o', 'b', 'j', 'e', 'c', 't', '_', '5'] ['5'] (by rfl)).2.1
    5 attr5 (by rfl) (by rfl)

/-- C9: a negative read offset is rejected with `ENOENT` before any reader
operation (the returned state is the input state), and for a non-negative
offset the guard `!offset >= 0` — a bitwise NOT, equal to `-offset - 1 ≥ 0`
— never triggers. -/
theorem C9_negative_offset_guard (fs : V2Fs) (ino : Nat) (offset : Int)
    (size : Nat) :
    (offset < 0 → V2Fs.read fs ino offset size = (.error .zff, fs))
    ∧ (0 ≤ offset → ¬ (rustNotI64 offset ≥ 0)) := by
  constructor
  · intro hneg
    have hg : rustNotI64 offset ≥ 0 := by unfold rustNotI64; omega
    unfold V2Fs.read
    rw [if_pos hg]
  · intro hpos
    unfold rustNotI64
    omega

/-- C9 witness: offset `-3` is rejected without touching the state, and the
guard is quiet at offset `0`. -/
theorem C9_negative_offset_guard_witness :
    V2Fs.read v2ex 12 (-3) 3 = (.error .zff, v2ex)
    ∧ ¬ (rustNotI64 0 ≥ 0) :=
  ⟨(C9_negative_offset_guard v2ex 12 (-3) 3).1 (by decide),
   (C9_negative_offset_guard v2ex 12 0 3).2 (by decide)⟩

/-- C10: `readdir` on an object-root inode `1 < ino ≤ S` whose object
number `ino - 1` is absent from the cached object list or still marked
encrypted replies `ENOENT` and emits no entry (both the
`set_active_object` failure path and the cache check lead to the error
reply). -/
theorem C10_sealed_object_root_readdir_enoent (fs : ZffFs)
    (ino offset : Nat) (h1 : 1 < ino) (h2 : ino ≤ fs.shift_value)
    (h3 : fs.cache.object_list.lookup (ino - 1) = none ∨
      fs.cache.object_list.lookup (ino - 1) = some .Encrypted) :
    ZffFs.readdir fs ino offset = .error .zff := by
  have hne : ino ≠ SPECIAL_INODE_ROOT_DIR := by
    unfold SPECIAL_INODE_ROOT_DIR; omega
  have hsub : u64sub1 ino = ino - 1 := by
    unfold u64sub1
    rw [if_neg (by omega)]
  simp only [ZffFs.readdir, if_neg hne, if_pos h2, hsub]
  cases hso : set_active_object fs.zffreader (ino - 1) with
  | error e => rfl
  | ok st1 => rcases h3 with h3 | h3 <;> rw [h3]

/-- C10 witness: over `fsTen` (shift 5, object 2 still encrypted) a readdir
of the object-root inode 3 replies `ENOENT`. -/
theorem C10_sealed_object_root_readdir_enoent_witness :
    ZffFs.readdir fsTen 3 0 = .error .zff :=
  C10_sealed_object_root_readdir_enoent fsTen 3 0 (by decide) (by decide)
    (.inr (by decide))

end Zffmount
